import Mathlib

/-!
# Verification of the zach-dev portfolio core (URL shortener + privacy-conscious analytics)

Shallow embedding, in Lean 4, of the core logic of the repository:

* `hashIP` (admin.go): SHA-256 of `ip ++ salt`, hex-encoded, truncated to 16 characters.
  SHA-256 itself (Go `crypto/sha256`) is embedded executably on `Nat`, with 32-bit
  words represented as naturals reduced modulo `2^32`.
* `generateShortCode` (main.go): 6 random bytes, URL-safe base64, padding stripped,
  truncated to at most 8 characters.
* the SQLite-backed link store (`saveURL`, `getURL`, click increments) and the
  `/shorten-url` and `/s/:code` handlers (main.go).
* the visitor-tracking middleware, `trackVisitorPrivacy`, the visitors-table
  migrations (`migrateVisitorTable`, `migrateExistingData`) and the top-URLs
  aggregation of `getAdminStats` (admin.go).

Machine integers are modelled as `Nat` with explicit `% 2 ^ 32` / `% 256` where
overflow or byte extraction matters; fallible operations return `Except`/`Option`.
-/

namespace ZachDev

/-! ## 32-bit word primitives (Go `uint32` arithmetic on `Nat`) -/

/-- `2^32`, the modulus for Go's `uint32` arithmetic. -/
def w32 : Nat := 4294967296

/-- Go `+` on `uint32`: addition modulo `2^32`. -/
def add32 (a b : Nat) : Nat := (a + b) % w32

/-- Bitwise combination of the low `k` bits of `a` and `b`, by structural recursion on
the bit budget `k` (kernel-reducible, unlike `Nat.bitwise`).  For `a b < 2^k` this is
the usual bitwise operation with boolean combiner `f`. -/
def bitwiseFuel (f : Bool → Bool → Bool) : Nat → Nat → Nat → Nat
  | 0, _, _ => 0
  | k + 1, a, b =>
    (cond (f (a % 2 == 1) (b % 2 == 1)) 1 0) + 2 * bitwiseFuel f k (a / 2) (b / 2)

/-- Go `^` (xor) on `uint32` values. -/
def xor32 (a b : Nat) : Nat := bitwiseFuel Bool.xor 32 a b

/-- Go `&` (and) on `uint32` values. -/
def and32 (a b : Nat) : Nat := bitwiseFuel Bool.and 32 a b

/-- Go `^x` (bitwise complement) on a `uint32` value. -/
def not32 (a : Nat) : Nat := xor32 a 4294967295

/-- Right rotation of a 32-bit word by `n` (Go `bits.RotateLeft32(x, -n)` as used by
`crypto/sha256`). -/
def rotr32 (n x : Nat) : Nat := x / 2 ^ n + x % 2 ^ n * 2 ^ (32 - n)

/-- Logical right shift of a 32-bit word. -/
def shr32 (n x : Nat) : Nat := x / 2 ^ n

/-! ## SHA-256 (Go `crypto/sha256`) -/

/-- The eight initial hash values of SHA-256. -/
structure Sha256State where
  a : Nat
  b : Nat
  c : Nat
  d : Nat
  e : Nat
  f : Nat
  g : Nat
  h : Nat
deriving Repr, DecidableEq

/-- SHA-256 initial state (FIPS 180-4 / Go `crypto/sha256` `init0..init7`). -/
def sha256Init : Sha256State :=
  ⟨1779033703, 3144134277, 1013904242,
   2773480762, 1359893119, 2600822924,
   528734635, 1541459225⟩

/-- The 64 SHA-256 round constants (Go `crypto/sha256` `_K`). -/
def sha256K : List Nat :=
  [1116352408, 1899447441, 3049323471, 3921009573, 961987163, 1508970993,
   2453635748, 2870763221, 3624381080, 310598401, 607225278, 1426881987,
   1925078388, 2162078206, 2614888103, 3248222580, 3835390401, 4022224774,
   264347078, 604807628, 770255983, 1249150122, 1555081692, 1996064986,
   2554220882, 2821834349, 2952996808, 3210313671, 3336571891, 3584528711,
   113926993, 338241895, 666307205, 773529912, 1294757372, 1396182291,
   1695183700, 1986661051, 2177026350, 2456956037, 2730485921, 2820302411,
   3259730800, 3345764771, 3516065817, 3600352804, 4094571909, 275423344,
   430227734, 506948616, 659060556, 883997877, 958139571, 1322822218,
   1537002063, 1747873779, 1955562222, 2024104815, 2227730452, 2361852424,
   2428436474, 2756734187, 3204031479, 3329325298]

/-- xor of three 32-bit words. -/
def xor3 (a b c : Nat) : Nat := xor32 (xor32 a b) c

/-- SHA-256 small sigma 0 (message schedule). -/
def ssig0 (x : Nat) : Nat := xor3 (rotr32 7 x) (rotr32 18 x) (shr32 3 x)

/-- SHA-256 small sigma 1 (message schedule). -/
def ssig1 (x : Nat) : Nat := xor3 (rotr32 17 x) (rotr32 19 x) (shr32 10 x)

/-- One step of the SHA-256 message-schedule extension: append
`sigma1(w[L-2]) + w[L-7] + sigma0(w[L-15]) + w[L-16]` (mod `2^32`). -/
def schedStep (ws : List Nat) : List Nat :=
  let L := ws.length
  let g := fun i => ws.getD (L - i) 0
  ws ++ [add32 (add32 (add32 (ssig1 (g 2)) (g 7)) (ssig0 (g 15))) (g 16)]

/-- Extend the 16 chunk words by `k` further schedule words. -/
def schedule (ws : List Nat) : Nat → List Nat
  | 0 => ws
  | k + 1 => schedStep (schedule ws k)

/-- One SHA-256 compression round, consuming a pair (round constant, schedule word). -/
def sha256Round (s : Sha256State) (kw : Nat × Nat) : Sha256State :=
  let S1 := xor3 (rotr32 6 s.e) (rotr32 11 s.e) (rotr32 25 s.e)
  let ch := xor32 (and32 s.e s.f) (and32 (not32 s.e) s.g)
  let t1 := add32 (add32 (add32 (add32 s.h S1) ch) kw.1) kw.2
  let S0 := xor3 (rotr32 2 s.a) (rotr32 13 s.a) (rotr32 22 s.a)
  let maj := xor3 (and32 s.a s.b) (and32 s.a s.c) (and32 s.b s.c)
  let t2 := add32 S0 maj
  ⟨add32 t1 t2, s.a, s.b, s.c, add32 s.d t1, s.e, s.f, s.g⟩

/-- Big-endian decoding of bytes into 32-bit words, four bytes at a time. -/
def bytesToWords : List Nat → List Nat
  | b1 :: b2 :: b3 :: b4 :: rest =>
    (((b1 * 256 + b2) * 256 + b3) * 256 + b4) :: bytesToWords rest
  | _ => []

/-- Split a byte list into 64-byte chunks; structural recursion on a fuel bounded by
the list length (each step consumes at least one element, so `l.length` steps
suffice). -/
def chunks64Fuel : Nat → List Nat → List (List Nat)
  | 0, _ => []
  | _, [] => []
  | fuel + 1, x :: xs => (x :: xs.take 63) :: chunks64Fuel fuel (xs.drop 63)

/-- Split a byte list into 64-byte chunks. -/
def chunks64 (l : List Nat) : List (List Nat) := chunks64Fuel l.length l

/-- Big-endian 8-byte encoding of the bit length (SHA-256 length suffix). -/
def lenBytes8 (n : Nat) : List Nat :=
  [n / 2 ^ 56 % 256, n / 2 ^ 48 % 256, n / 2 ^ 40 % 256, n / 2 ^ 32 % 256,
   n / 2 ^ 24 % 256, n / 2 ^ 16 % 256, n / 2 ^ 8 % 256, n % 256]

/-- SHA-256 padding: append `0x80`, zeros to 56 mod 64, then the 64-bit bit length. -/
def padBytes (msg : List Nat) : List Nat :=
  let L := msg.length
  msg ++ [128] ++ List.replicate ((119 - L % 64) % 64) 0 ++ lenBytes8 (8 * L)

/-- Process one 64-byte chunk: schedule expansion, 64 rounds, and state addition. -/
def compressChunk (s : Sha256State) (chunk : List Nat) : Sha256State :=
  let ws := schedule (bytesToWords chunk) 48
  let t := (sha256K.zip ws).foldl sha256Round s
  ⟨add32 s.a t.a, add32 s.b t.b, add32 s.c t.c, add32 s.d t.d,
   add32 s.e t.e, add32 s.f t.f, add32 s.g t.g, add32 s.h t.h⟩

/-- Big-endian byte serialization of one 32-bit word. -/
def wordBytes (w : Nat) : List Nat :=
  [w / 2 ^ 24 % 256, w / 2 ^ 16 % 256, w / 2 ^ 8 % 256, w % 256]

/-- SHA-256 digest (32 bytes) of a byte message, as in Go `sha256.Sum` /
`hash.Sum(nil)`. -/
def sha256Bytes (msg : List Nat) : List Nat :=
  let s := (chunks64 (padBytes msg)).foldl compressChunk sha256Init
  ([s.a, s.b, s.c, s.d, s.e, s.f, s.g, s.h].map wordBytes).flatten

/-! ## Strings as UTF-8 bytes (Go `[]byte(s)`) -/

/-- UTF-8 encoding of a single character. -/
def utf8Char (c : Char) : List Nat :=
  let n := c.toNat
  if n < 128 then [n]
  else if n < 2048 then [192 + n / 64, 128 + n % 64]
  else if n < 65536 then [224 + n / 4096, 128 + n / 64 % 64, 128 + n % 64]
  else [240 + n / 262144, 128 + n / 4096 % 64, 128 + n / 64 % 64, 128 + n % 64]

/-- UTF-8 bytes of a string (Go's `[]byte(s)` conversion). -/
def strBytes (s : String) : List Nat := (s.data.map utf8Char).flatten

/-! ## Hex encoding (Go `encoding/hex`) -/

/-- The lowercase hex digit for a value below 16, as Go's `hex.EncodeToString`
looks it up in its digit table `0..9a..f` (written here as the equivalent ASCII
code: digits start at code 48, letters `a..f` at code 97 = 87 + 10). -/
def hexDigit (n : Nat) : Char := Char.ofNat (if n < 10 then 48 + n else 87 + n)

/-- Two-character lowercase hex encoding of one byte. -/
def byteHex (b : Nat) : List Char := [hexDigit (b / 16 % 16), hexDigit (b % 16)]

/-- Go `hex.EncodeToString` on a byte list. -/
def hexEncode (bs : List Nat) : List Char := (bs.map byteHex).flatten

/-! ## `hashIP` (admin.go) -/

/-- admin.go `hashIP`: SHA-256 of `ip + hashingSalt`, hex-encoded, truncated to the
first 16 characters.  The process-global `hashingSalt` is passed explicitly. -/
def hashIP (ip salt : String) : String :=
  String.mk ((hexEncode (sha256Bytes (strBytes (ip ++ salt)))).take 16)


/-! ## URL-safe base64 (Go `encoding/base64` `URLEncoding`) and `generateShortCode` -/

/-- The URL-safe base64 alphabet (Go `base64.URLEncoding`). -/
def b64Alphabet : List Char :=
  "ABCDEFGHIJKLMNOPQRSTUVWXYZabcdefghijklmnopqrstuvwxyz0123456789-_".data

/-- The alphabet character for a 6-bit value. -/
def b64Char (n : Nat) : Char := b64Alphabet.getD n 'A'

/-- Go `base64.URLEncoding.EncodeToString`: three bytes become four characters;
a final group of two or one byte is padded with `=`. -/
def base64urlEncode : List Nat → List Char
  | b1 :: b2 :: b3 :: rest =>
    b64Char (b1 / 4) :: b64Char (b1 % 4 * 16 + b2 / 16) ::
    b64Char (b2 % 16 * 4 + b3 / 64) :: b64Char (b3 % 64) :: base64urlEncode rest
  | [b1, b2] => [b64Char (b1 / 4), b64Char (b1 % 4 * 16 + b2 / 16), b64Char (b2 % 16 * 4), '=']
  | [b1] => [b64Char (b1 / 4), b64Char (b1 % 4 * 16), '=', '=']
  | [] => []

/-- Go `strings.TrimRight(s, "=")` on a character list. -/
def trimRightEqList (l : List Char) : List Char :=
  (l.reverse.dropWhile (fun c => c == '=')).reverse

/-- main.go `generateShortCode`, bytes already drawn: base64-URL encode, strip `=`
padding, and keep only the first 8 characters when longer. -/
def generateShortCodePure (bytes : List Nat) : String :=
  let sc := trimRightEqList (base64urlEncode bytes)
  String.mk (if 8 < sc.length then sc.take 8 else sc)

/-- main.go `generateShortCode`: the secure-randomness source either fails (the
error is returned unchanged) or supplies the 6 random bytes. -/
def generateShortCode (r : Except String (List Nat)) : Except String String :=
  match r with
  | .error e => .error e
  | .ok bytes => .ok (generateShortCodePure bytes)

/-- A character Go's URL-shortener may emit: base64-URL alphabet members are
letters, digits, `-` or `_`. -/
def isURLSafeChar (c : Char) : Bool := c.isAlphanum || c == '-' || c == '_'

/-! ## String helpers mirroring Go `strings` functions (kernel-computable) -/

/-- Character-list core of Go `strings.HasPrefix`. -/
def strStartsWithAux : List Char → List Char → Bool
  | _, [] => true
  | [], _ :: _ => false
  | c :: cs, p :: ps => c == p && strStartsWithAux cs ps

/-- Go `strings.HasPrefix s pattern` (for the ASCII patterns used here this agrees
with the byte-level test). -/
def strStartsWith (s pattern : String) : Bool := strStartsWithAux s.data pattern.data

/-- Drop leading whitespace characters. -/
def trimLeftWS : List Char → List Char
  | [] => []
  | c :: cs => if c.isWhitespace then trimLeftWS cs else c :: cs

/-- Go `strings.TrimSpace`: drop leading and trailing whitespace. -/
def strTrim (s : String) : String :=
  String.mk (trimLeftWS (trimLeftWS s.data).reverse).reverse

/-! ## Go `net/url` scheme parsing (the part used by the `/shorten-url` handler) -/

/-- Scheme scanner of Go `url.Parse` (`getScheme`): letters continue the scheme;
digits and `+` `-` `.` continue it except at position 0; `:` ends it (an error when
at position 0, folded into `none` here since the handler rejects both); any other
character means no scheme.  `acc` holds the characters scanned so far. -/
def goURLSchemeAux : List Char → List Char → Option String
  | _, [] => none
  | acc, c :: rest =>
    if c.isAlpha then goURLSchemeAux (acc ++ [c]) rest
    else if c == ':' then (if acc.isEmpty then none else some (String.mk (acc.map Char.toLower)))
    else if c.isDigit || c == '+' || c == '-' || c == '.' then
      (if acc.isEmpty then none else goURLSchemeAux (acc ++ [c]) rest)
    else none

/-- The scheme `url.Parse` reports for a raw URL (`none`: no scheme, or the
position-0-colon parse error; either way the handler rejects). -/
def goURLScheme (s : String) : Option String := goURLSchemeAux [] s.data

/-! ## The link store (SQLite `urls` table, main.go) -/

/-- One row of the `urls` table: `short_code` (primary key), `original_url`,
`created_at`, and the `clicks` column added by `ALTER TABLE` (kept `Option` to
mirror the defensive `COALESCE(clicks, 0)` in the queries). -/
structure URLRow where
  shortCode : String
  originalURL : String
  createdAt : Nat
  clicks : Option Nat
deriving Repr, DecidableEq

/-- The `urls` table contents. -/
abbrev URLStore := List URLRow

/-- Errors surfaced by the store. -/
inductive DBError
  | duplicateKey
deriving Repr, DecidableEq

/-- main.go `saveURL`: `INSERT INTO urls (short_code, original_url) VALUES (?, ?)`.
The primary-key constraint rejects an existing code; otherwise the row is appended
with `created_at` = now and the `clicks` column default 0. -/
def saveURL (store : URLStore) (code url : String) (now : Nat) : Except DBError URLStore :=
  if store.any (fun r => r.shortCode == code) then .error .duplicateKey
  else .ok (store ++ [⟨code, url, now, some 0⟩])

/-- Outcome of `db.QueryRow("SELECT original_url FROM urls WHERE short_code = ?")`:
a row, `sql.ErrNoRows`, or any other database error. -/
inductive QueryOutcome
  | row (url : String)
  | noRows
  | dbError (msg : String)
deriving Repr, DecidableEq

/-- The query outcome a healthy store produces for a code. -/
def queryOriginalURL (store : URLStore) (code : String) : QueryOutcome :=
  match store.find? (fun r => r.shortCode == code) with
  | some r => .row r.originalURL
  | none => .noRows

/-- main.go `getURL`, error handling on the scan: a row yields `(url, true)`;
`sql.ErrNoRows` yields `("", false)`; any other error is logged and also yields
`("", false)`. -/
def getURLFrom (q : QueryOutcome) : String × Bool :=
  match q with
  | .row u => (u, true)
  | .noRows => ("", false)
  | .dbError _ => ("", false)

/-- main.go `getURL` over a healthy store. -/
def getURL (store : URLStore) (code : String) : String × Bool :=
  getURLFrom (queryOriginalURL store code)

/-- The background goroutine of `getURL`:
`UPDATE urls SET clicks = COALESCE(clicks, 0) + 1 WHERE short_code = ?`. -/
def incrementClicks (store : URLStore) (code : String) : URLStore :=
  store.map (fun r =>
    if r.shortCode == code then { r with clicks := some (r.clicks.getD 0 + 1) } else r)

/-- One `getURL` call with its click side effect: the increment goroutine is
spawned exactly when the scan found a row. -/
def getURLStep (store : URLStore) (code : String) : (String × Bool) × URLStore :=
  let res := getURL store code
  (res, if res.2 then incrementClicks store code else store)

/-- The store after a sequence of lookups (each with its settled click increment). -/
def applyLookups (codes : List String) (store : URLStore) : URLStore :=
  codes.foldl (fun s c => (getURLStep s c).2) store

/-- The click counter the store holds for a code (0 when absent, `COALESCE`d). -/
def clicksOf (store : URLStore) (code : String) : Nat :=
  match store.find? (fun r => r.shortCode == code) with
  | some r => r.clicks.getD 0
  | none => 0

/-! ## The `/s/:code` redirect handler and the `/shorten-url` handler (main.go) -/

/-- What the `GET /s/:code` handler sends: a `302 Found` redirect on a hit, the
404 page otherwise. -/
inductive RedirectResponse
  | redirectFound (url : String)
  | notFoundPage
deriving Repr, DecidableEq

/-- The `GET /s/:code` handler over the outcome of the store query. -/
def serveRedirect (q : QueryOutcome) : RedirectResponse :=
  let r := getURLFrom q
  if r.2 then .redirectFound r.1 else .notFoundPage

/-- User-visible outcome of the `POST /shorten-url` handler. -/
inductive ShortenOutcome
  | emptyInput
  | invalidURL
  | genFailed
  | saveFailed
  | shortened (code : String)
deriving Repr, DecidableEq

/-- The `POST /shorten-url` handler (main.go): trim the input, validate the scheme,
call `generateShortCode` once, call `saveURL` once, and render an error page on any
failure.  The third component counts the `generateShortCode` invocations made
during the request (the handler contains no retry loop, so it is 0 before
validation passes and 1 after). -/
def shortenHandler (input : String) (gen : Except String String) (store : URLStore)
    (now : Nat) : ShortenOutcome × URLStore × Nat :=
  let u := strTrim input
  if u == "" then (.emptyInput, store, 0)
  else if !(goURLScheme u == some "http" || goURLScheme u == some "https") then
    (.invalidURL, store, 0)
  else
    match gen with
    | .error _ => (.genFailed, store, 1)
    | .ok code =>
      match saveURL store code u now with
      | .error _ => (.saveFailed, store, 1)
      | .ok store2 => (.shortened code, store2, 1)

/-! ## Visitor tracking (admin.go) -/

/-- Which address column an insert populated: the new `hashed_ip` column or, on the
backwards-compatibility fallback, the legacy `ip` column. -/
inductive AddrColumn
  | hashedIpCol
  | legacyIpCol
deriving Repr, DecidableEq

/-- A row the tracking path hands to `INSERT INTO visitors`. -/
structure VisitorInsert where
  column : AddrColumn
  addressValue : String
  userAgent : String
  path : String
  time : Nat
deriving Repr, DecidableEq

/-- admin.go `trackVisitorPrivacy`: hash the address, insert into `hashed_ip`; if
that insert fails, retry into the legacy `ip` column with the same hashed value; if
that also fails, only log.  The two Booleans are the abstract insert outcomes. -/
def trackVisitorPrivacy (salt ip userAgent path : String) (now : Nat)
    (firstInsertFails secondInsertFails : Bool) : Option VisitorInsert :=
  let hashedIP := hashIP ip salt
  if firstInsertFails then
    if secondInsertFails then none
    else some ⟨.legacyIpCol, hashedIP, userAgent, path, now⟩
  else some ⟨.hashedIpCol, hashedIP, userAgent, path, now⟩

/-- admin.go `visitorTrackingMiddleware`: number of `trackVisitorPrivacy` calls
spawned for a request with this path and `DNT` header (0 or 1). -/
def middlewareTrackCalls (path dnt : String) : Nat :=
  if strStartsWith path "/static/" || strStartsWith path "/images/" ||
      strStartsWith path "/admin/" || strStartsWith path "/favicon" ||
      strStartsWith path "/privacy" then 0
  else if dnt == "1" then 0
  else 1

/-! ## Visitors-table schema migration (admin.go) -/

/-- A row of the legacy `visitors` table (raw-address column, no `hashed_ip`). -/
structure LegacyVisitorRow where
  id : Nat
  ip : String
  userAgent : String
  path : String
  timestamp : String
  country : Option String
deriving Repr, DecidableEq

/-- A row of the new privacy-conscious `visitors` table. -/
structure MigratedVisitorRow where
  hashedIp : String
  userAgent : String
  path : String
  timestamp : String
  country : String
deriving Repr, DecidableEq

/-- The tables relevant to the migration: `visitors` (new schema) and
`visitors_old` (the renamed legacy table), each possibly absent. -/
structure VisitorLedgerDB where
  visitors : Option (List MigratedVisitorRow)
  visitorsOld : Option (List LegacyVisitorRow)
deriving Repr, DecidableEq

/-- Zero-padded hex of width `k` (SQLite `printf` with a `016x` conversion). -/
def hexPad : Nat → Nat → List Char
  | 0, _ => []
  | k + 1, n => hexPad k (n / 16) ++ [hexDigit (n % 16)]

/-- SQLite `printf` of a value with the `016x` format. -/
def toHex16 (n : Nat) : String := String.mk (hexPad 16 n)

/-- The migration's placeholder value for one row: SQLite
`printf` of `abs(random()) % 1000000000` in the `016x` format, where the `Int`
argument is that row's draw from `random()`. -/
def sqliteMigPlaceholder (r : Int) : String := toHex16 (r.natAbs % 1000000000)

/-- admin.go `migrateVisitorTable`: rename `visitors` to `visitors_old`, create the
new table, `INSERT ... SELECT` every old row with a random placeholder `hashed_ip`
(one `random()` draw per row, supplied here as `randoms`), `COALESCE(country, '')`,
then drop `visitors_old`.  Both branches of the `hasIPColumn` check run the same
query, so the old `ip` values are never read. -/
def migrateVisitorTable (old : List LegacyVisitorRow) (randoms : List Int) :
    VisitorLedgerDB :=
  let newRows := List.zipWith
    (fun (row : LegacyVisitorRow) (r : Int) =>
      (⟨sqliteMigPlaceholder r, row.userAgent, row.path, row.timestamp,
        row.country.getD ""⟩ : MigratedVisitorRow))
    old randoms
  ⟨some newRows, none⟩

/-- A row of the `visitors` table as seen by `migrateExistingData` (new schema with
`id`, `hashed_ip` possibly NULL or empty). -/
structure StoredVisitorRow where
  id : Nat
  hashedIp : Option String
  userAgent : String
  path : String
  timestamp : String
  country : Option String
deriving Repr, DecidableEq

/-- admin.go `migrateExistingData`:
`UPDATE visitors SET hashed_ip = printf(..., id * 12345) WHERE hashed_ip IS NULL OR
hashed_ip = ''` with the `016x` format — a placeholder derived deterministically
from the row's own `id`. -/
def migrateExistingData (rows : List StoredVisitorRow) : List StoredVisitorRow :=
  rows.map (fun r =>
    match r.hashedIp with
    | none => { r with hashedIp := some (toHex16 (r.id * 12345)) }
    | some s =>
      if s == "" then { r with hashedIp := some (toHex16 (r.id * 12345)) } else r)

/-! ## Top-URLs aggregation of `getAdminStats` (admin.go) -/

/-- One entry of the admin top-URLs list (`URLStat` in admin.go); `clicks` is the
`COALESCE(clicks, 0)` the query selects. -/
structure URLStat where
  shortCode : String
  originalURL : String
  createdAt : Nat
  clicks : Nat
deriving Repr, DecidableEq

/-- The `SELECT` row for a `urls` row: `COALESCE(clicks, 0) as clicks`. -/
def toURLStat (r : URLRow) : URLStat :=
  ⟨r.shortCode, r.originalURL, r.createdAt, r.clicks.getD 0⟩

/-- `x` may precede `y` under `ORDER BY clicks DESC, created_at DESC`. -/
def topURLOrder (x y : URLStat) : Prop :=
  y.clicks < x.clicks ∨ (x.clicks = y.clicks ∧ y.createdAt ≤ x.createdAt)

instance : DecidableRel topURLOrder :=
  fun _ _ => inferInstanceAs (Decidable (_ ∨ _ ∧ _))

/-- The top-URLs query of `getAdminStats`:
`ORDER BY clicks DESC, created_at DESC LIMIT 10` over the selected rows. -/
def topURLs (rows : List URLRow) : List URLStat :=
  (List.insertionSort topURLOrder (rows.map toURLStat)).take 10

/-! ## Auxiliary definitions for the hash-truncation pigeonhole argument -/

/-- Base-256 little-endian value of a byte list (used only to map truncated digests
into a finite type). -/
def fromBytesLE : List Nat → Nat
  | [] => 0
  | b :: t => b + 256 * fromBytesLE t

/-- The salt family `n ↦ "xx...x"` (`n` letters), pairwise distinct salts. -/
def saltOf (n : Nat) : String := String.mk (List.replicate n 'x')

end ZachDev

namespace ZachDev

/-! ## Helper lemmas -/

/-- A `saveURL` insert succeeds exactly on codes the store does not hold. -/
theorem saveURL_of_fresh {store : URLStore} {code : String} (url : String) (now : Nat)
    (h : store.find? (fun r => r.shortCode == code) = none) :
    saveURL store code url now = .ok (store ++ [⟨code, url, now, some 0⟩]) := by
  have hany : store.any (fun r => r.shortCode == code) = false := by
    rw [List.any_eq_false]
    exact fun r hr => List.find?_eq_none.mp h r hr
  simp [saveURL, hany]

/-- Looking up a code in a store that does not hold it misses. -/
theorem getURL_of_absent {store : URLStore} {code : String}
    (h : store.find? (fun r => r.shortCode == code) = none) :
    getURL store code = ("", false) := by
  simp [getURL, queryOriginalURL, h, getURLFrom]

/-- The row-update of the click increment leaves every `short_code` in place. -/
theorem find?_incrementClicks (store : URLStore) (c c' : String) :
    (incrementClicks store c).find? (fun r => r.shortCode == c') =
      (store.find? (fun r => r.shortCode == c')).map
        (fun r => if r.shortCode == c then { r with clicks := some (r.clicks.getD 0 + 1) } else r) := by
  unfold incrementClicks
  rw [List.find?_map]
  have hpf : ((fun r : URLRow => r.shortCode == c') ∘ fun r =>
      if r.shortCode == c then { r with clicks := some (r.clicks.getD 0 + 1) } else r) =
      fun r : URLRow => r.shortCode == c' := by
    funext r
    by_cases h : r.shortCode == c <;> simp [Function.comp, h]
  rw [hpf]

/-- Click increments never lower any counter. -/
theorem clicksOf_incrementClicks_ge (store : URLStore) (c c' : String) :
    clicksOf store c' ≤ clicksOf (incrementClicks store c) c' := by
  unfold clicksOf
  rw [find?_incrementClicks]
  cases h : store.find? (fun r => r.shortCode == c') with
  | none => simp
  | some r =>
    simp only [Option.map_some']
    by_cases hc : r.shortCode == c <;> simp [hc]

/-- A single lookup step never lowers any counter. -/
theorem clicksOf_getURLStep_ge (store : URLStore) (c c' : String) :
    clicksOf store c' ≤ clicksOf ((getURLStep store c).2) c' := by
  unfold getURLStep getURL queryOriginalURL
  cases h : store.find? (fun r => r.shortCode == c) with
  | none => simp [getURLFrom, h]
  | some r => simpa [getURLFrom, h] using clicksOf_incrementClicks_ge store c c'

/-- A lookup hit bumps that code's counter by exactly one and keeps it present. -/
theorem clicksOf_getURLStep_hit {store : URLStore} {c : String}
    (h : (store.find? (fun r => r.shortCode == c)).isSome = true) :
    clicksOf ((getURLStep store c).2) c = clicksOf store c + 1 ∧
      (((getURLStep store c).2).find? (fun r => r.shortCode == c)).isSome = true := by
  obtain ⟨r, hr⟩ := Option.isSome_iff_exists.mp h
  have hrc := List.find?_some hr
  have hstep : (getURLStep store c).2 = incrementClicks store c := by
    unfold getURLStep getURL queryOriginalURL
    rw [hr]
    simp [getURLFrom]
  rw [hstep]
  constructor
  · unfold clicksOf
    rw [find?_incrementClicks, hr]
    have heq : r.shortCode = c := by simpa using hrc
    simp [heq]
  · rw [find?_incrementClicks, hr]
    simp

/-- No lookup sequence ever lowers a counter. -/
theorem clicksOf_applyLookups_ge (codes : List String) (store : URLStore) (c : String) :
    clicksOf store c ≤ clicksOf (applyLookups codes store) c := by
  induction codes generalizing store with
  | nil => exact Nat.le_refl _
  | cons d t ih =>
    calc clicksOf store c ≤ clicksOf ((getURLStep store d).2) c :=
          clicksOf_getURLStep_ge store d c
      _ ≤ clicksOf (applyLookups t ((getURLStep store d).2)) c := ih _
      _ = clicksOf (applyLookups (d :: t) store) c := rfl

/-- `n` lookups of a present code add exactly `n` to its counter. -/
theorem clicksOf_applyLookups_replicate {store : URLStore} {c : String} (n : Nat)
    (h : (store.find? (fun r => r.shortCode == c)).isSome = true) :
    clicksOf (applyLookups (List.replicate n c) store) c = clicksOf store c + n := by
  induction n generalizing store with
  | zero => rfl
  | succ k ih =>
    have step := clicksOf_getURLStep_hit h
    have : applyLookups (List.replicate (k + 1) c) store =
        applyLookups (List.replicate k c) ((getURLStep store c).2) := rfl
    rw [this, ih step.2, step.1]
    omega

/-! ## C1: save/lookup round-trip -/

/-- C1: for every URL whose parsed scheme is `http` or `https`, saving a fresh short
code with `saveURL` and then looking the code up with `getURL` returns exactly that
URL with `found = true`; looking up a code that was never saved returns
`("", false)`. -/
theorem saveURL_getURL_roundtrip :
    (∀ (store : URLStore) (code url : String) (now : Nat),
      (goURLScheme url = some "http" ∨ goURLScheme url = some "https") →
      store.find? (fun r => r.shortCode == code) = none →
      ∃ store2, saveURL store code url now = .ok store2 ∧
        getURL store2 code = (url, true)) ∧
    (∀ (store : URLStore) (code : String),
      store.find? (fun r => r.shortCode == code) = none →
      getURL store code = ("", false)) := by
  constructor
  · intro store code url now _ hfresh
    refine ⟨store ++ [⟨code, url, now, some 0⟩], saveURL_of_fresh url now hfresh, ?_⟩
    unfold getURL queryOriginalURL
    rw [List.find?_append, hfresh]
    simp [getURLFrom]
  · intro store code h
    exact getURL_of_absent h

/-- C1 witness: the spec scenario `save("abc123", "https://example.com")` then
`lookup("abc123") = ("https://example.com", true)` and
`lookup("zzz999") = ("", false)`. -/
theorem saveURL_getURL_roundtrip_witness :
    (∃ store2, saveURL [] "abc123" "https://example.com" 0 = .ok store2 ∧
      getURL store2 "abc123" = ("https://example.com", true)) ∧
    getURL [⟨"abc123", "https://example.com", 0, some 0⟩] "zzz999" = ("", false) :=
  ⟨saveURL_getURL_roundtrip.1 [] "abc123" "https://example.com" 0 (Or.inr rfl) rfl,
   saveURL_getURL_roundtrip.2 [⟨"abc123", "https://example.com", 0, some 0⟩] "zzz999" rfl⟩

/-! ## C4: click-counter monotonicity and exactness -/

/-- C4: across any sequence of lookups the `clicks` counter of a code never
decreases; after `n` lookups of a present code the counter equals its prior value
plus `n`; and a lookup miss changes nothing (no increment is spawned). -/
theorem clicks_monotone_and_exact :
    (∀ (codes : List String) (store : URLStore) (c : String),
      clicksOf store c ≤ clicksOf (applyLookups codes store) c) ∧
    (∀ (store : URLStore) (c : String) (n : Nat),
      (store.find? (fun r => r.shortCode == c)).isSome = true →
      clicksOf (applyLookups (List.replicate n c) store) c = clicksOf store c + n) ∧
    (∀ (store : URLStore) (c : String),
      store.find? (fun r => r.shortCode == c) = none →
      (getURLStep store c).2 = store) := by
  refine ⟨clicksOf_applyLookups_ge, fun store c n h => clicksOf_applyLookups_replicate n h, ?_⟩
  intro store c h
  unfold getURLStep getURL queryOriginalURL
  rw [h]
  simp [getURLFrom]

/-- C4 witness: three lookups of the saved code `"ab"` move its counter from 0 to 3,
and a miss on `"zz"` leaves the store unchanged. -/
theorem clicks_monotone_and_exact_witness :
    clicksOf (applyLookups (List.replicate 3 "ab") [⟨"ab", "https://e.com", 0, some 0⟩]) "ab" =
      clicksOf [⟨"ab", "https://e.com", 0, some 0⟩] "ab" + 3 ∧
    (getURLStep [⟨"ab", "https://e.com", 0, some 0⟩] "zz").2 =
      [⟨"ab", "https://e.com", 0, some 0⟩] :=
  ⟨clicks_monotone_and_exact.2.1 [⟨"ab", "https://e.com", 0, some 0⟩] "ab" 3 rfl,
   clicks_monotone_and_exact.2.2 [⟨"ab", "https://e.com", 0, some 0⟩] "zz" rfl⟩

/-! ## C10: storage errors are indistinguishable from a miss at the lookup interface -/

/-- C10: `getURL` maps any database error to `("", false)`, exactly the not-found
result, and the `/s/:code` redirect handler therefore renders the 404 page for
errors just as for unknown codes. -/
theorem getURL_error_like_miss :
    (∀ msg, getURLFrom (.dbError msg) = ("", false)) ∧
    getURLFrom .noRows = ("", false) ∧
    (∀ msg, getURLFrom (.dbError msg) = getURLFrom .noRows) ∧
    (∀ msg, serveRedirect (.dbError msg) = .notFoundPage) ∧
    serveRedirect .noRows = .notFoundPage :=
  ⟨fun _ => rfl, rfl, fun _ => rfl, fun _ => rfl, rfl⟩

end ZachDev

namespace ZachDev

/-! ## C7: tracking exclusions -/

/-- C7: the tracking middleware spawns no `trackVisitorPrivacy` call for asset
paths (`/static/`, `/images/`, `/favicon`), the admin subtree (`/admin/`), the
privacy page (`/privacy`), or any request with `DNT: 1`; every other request
spawns exactly one. -/
theorem middleware_exclusions :
    ∀ (path dnt : String),
      ((strStartsWith path "/static/" = true ∨ strStartsWith path "/images/" = true ∨
        strStartsWith path "/favicon" = true ∨ strStartsWith path "/admin/" = true ∨
        strStartsWith path "/privacy" = true ∨ dnt = "1") →
        middlewareTrackCalls path dnt = 0) ∧
      (¬(strStartsWith path "/static/" = true ∨ strStartsWith path "/images/" = true ∨
        strStartsWith path "/favicon" = true ∨ strStartsWith path "/admin/" = true ∨
        strStartsWith path "/privacy" = true ∨ dnt = "1") →
        middlewareTrackCalls path dnt = 1) := by
  intro path dnt
  constructor
  · intro h
    unfold middlewareTrackCalls
    rcases h with h | h | h | h | h | h
    · simp [h]
    · simp [h]
    · simp [h]
    · simp [h]
    · simp [h]
    · have hd : (dnt == "1") = true := by simp [h]
      by_cases hb : (strStartsWith path "/static/" || strStartsWith path "/images/" ||
          strStartsWith path "/admin/" || strStartsWith path "/favicon" ||
          strStartsWith path "/privacy") = true
      · simp [hb]
      · simp [hb, hd]
  · intro h
    simp only [not_or, Bool.not_eq_true] at h
    obtain ⟨h1, h2, h3, h4, h5, h6⟩ := h
    have h6b : (dnt == "1") = false := by simp [h6]
    simp [middlewareTrackCalls, h1, h2, h3, h4, h5, h6b]

/-- C7 witness: `/admin/login` is never recorded, a `DNT: 1` request is never
recorded, and a plain page view is recorded exactly once. -/
theorem middleware_exclusions_witness :
    middlewareTrackCalls "/admin/login" "" = 0 ∧
    middlewareTrackCalls "/work-content" "1" = 0 ∧
    middlewareTrackCalls "/work-content" "" = 1 :=
  ⟨(middleware_exclusions "/admin/login" "").1
      (Or.inr (Or.inr (Or.inr (Or.inl (by decide))))),
   (middleware_exclusions "/work-content" "1").1 (Or.inr (Or.inr (Or.inr (Or.inr (Or.inr rfl))))),
   (middleware_exclusions "/work-content" "").2 (by decide)⟩

/-! ## C6: only the hashed address is persisted -/

/-- C6: whatever row the tracking path manages to insert — through the new
`hashed_ip` column or the legacy `ip` column on fallback — its address value is
`hashIP(address)`, and the remaining columns are the given user agent, path and
timestamp; the raw address appears in no column. -/
theorem trackVisitor_stores_only_hash :
    ∀ (salt ip ua path : String) (now : Nat) (f1 f2 : Bool) (row : VisitorInsert),
      trackVisitorPrivacy salt ip ua path now f1 f2 = some row →
      row.addressValue = hashIP ip salt ∧ row.userAgent = ua ∧
        row.path = path ∧ row.time = now := by
  intro salt ip ua path now f1 f2 row h
  cases f1 <;> cases f2 <;>
    simp only [trackVisitorPrivacy, Bool.false_eq_true, if_false, if_true,
      reduceCtorEq, Option.some.injEq, reduceIte] at h <;>
    first
      | exact absurd h (by simp)
      | (rw [← h]; exact ⟨rfl, rfl, rfl, rfl⟩)

/-- C6 witness: a successful first insert stores exactly the hashed address row. -/
theorem trackVisitor_stores_only_hash_witness :
    trackVisitorPrivacy "s0" "198.51.100.9" "ua0" "/" 3 false false =
      some ⟨.hashedIpCol, hashIP "198.51.100.9" "s0", "ua0", "/", 3⟩ ∧
    (⟨AddrColumn.hashedIpCol, hashIP "198.51.100.9" "s0", "ua0", "/", 3⟩ :
        VisitorInsert).addressValue = hashIP "198.51.100.9" "s0" :=
  ⟨rfl, (trackVisitor_stores_only_hash "s0" "198.51.100.9" "ua0" "/" 3 false false _ rfl).1⟩

/-! ## C2: no retry after a short-code collision (corrected) -/

/-- C2 counterexample: with the store already holding the generated code, the
`POST /shorten-url` handler surfaces a user-facing save error after exactly one
`generateShortCode` attempt — there is no regenerate-and-retry and no
`ShortCodeExhausted`: the claimed "at least one regenerate-and-retry attempt
before an error is surfaced" is false at this input. -/
theorem shorten_no_retry_counterexample :
    shortenHandler "https://target.example" (.ok "C3d_fA9q")
        [⟨"C3d_fA9q", "https://other.example", 0, some 0⟩] 7 =
      (.saveFailed, [⟨"C3d_fA9q", "https://other.example", 0, some 0⟩], 1) ∧
    ¬ 2 ≤ (shortenHandler "https://target.example" (.ok "C3d_fA9q")
        [⟨"C3d_fA9q", "https://other.example", 0, some 0⟩] 7).2.2 := by
  constructor
  · rfl
  · decide

/-- C2 amended: when the store already holds the generated code, the handler makes
exactly one generation attempt and one save attempt, does not retry, leaves the
store unchanged, and immediately surfaces a generic save-error message. -/
theorem shortenHandler_collision_no_retry :
    ∀ (input code : String) (store : URLStore) (now : Nat),
      (goURLScheme (strTrim input) = some "http" ∨ goURLScheme (strTrim input) = some "https") →
      store.any (fun r => r.shortCode == code) = true →
      shortenHandler input (.ok code) store now = (.saveFailed, store, 1) := by
  intro input code store now hscheme hcol
  have hne : (strTrim input == "") = false := by
    rw [beq_eq_false_iff_ne]
    intro he
    rcases hscheme with h | h <;> rw [he] at h <;>
      exact absurd h (by rw [show goURLScheme "" = none from rfl]; simp)
  have hok : (goURLScheme (strTrim input) == some "http" ||
      goURLScheme (strTrim input) == some "https") = true := by
    rcases hscheme with h | h <;> simp [h]
  unfold shortenHandler
  simp only [hne, hok, Bool.not_true, Bool.false_eq_true, if_false]
  unfold saveURL
  rw [hcol]
  simp

/-- C2 amended witness: the collision scenario instantiated. -/
theorem shortenHandler_collision_no_retry_witness :
    shortenHandler "https://target.example" (.ok "C3d_fA9q")
        [⟨"C3d_fA9q", "https://other.example", 5, some 2⟩] 7 =
      (.saveFailed, [⟨"C3d_fA9q", "https://other.example", 5, some 2⟩], 1) :=
  shortenHandler_collision_no_retry "https://target.example" "C3d_fA9q"
    [⟨"C3d_fA9q", "https://other.example", 5, some 2⟩] 7 (Or.inr rfl) rfl

end ZachDev

namespace ZachDev

/-! ## C3: legacy-table migration (corrected) -/

/-- `hexPad` always produces exactly `k` characters. -/
theorem hexPad_length (k : Nat) : ∀ n, (hexPad k n).length = k := by
  induction k with
  | zero => intro n; rfl
  | succ m ih =>
    intro n
    simp [hexPad, ih]

/-- `printf` with the `016x` format always has 16 characters. -/
theorem toHex16_length (n : Nat) : (toHex16 n).length = 16 := by
  simp [toHex16, String.length, hexPad_length]

/-- `printf` with the `016x` format is never the empty string. -/
theorem toHex16_ne_empty (n : Nat) : toHex16 n ≠ "" := by
  intro h
  have := toHex16_length n
  rw [h] at this
  exact absurd this (by decide)

/-- Zipping that keeps only (a function of) the second component is a map, when the
second list is at least as informative in length. -/
theorem zipWith_snd_map {α β γ : Type} (f : β → γ) :
    ∀ (l1 : List α) (l2 : List β), l2.length = l1.length →
      List.zipWith (fun _ b => f b) l1 l2 = l2.map f := by
  intro l1
  induction l1 with
  | nil =>
    intro l2 h
    cases l2 with
    | nil => rfl
    | cons b bs => simp at h
  | cons a t ih =>
    intro l2 h
    cases l2 with
    | nil => simp at h
    | cons b bs => simp [ih bs (by simpa using h)]

/-- C3 counterexample: over a legacy table whose two rows have distinct surrogate
keys 1 and 2, a possible execution of `migrateVisitorTable` (the SQLite `random()`
stream returning 5 for both rows) assigns both rows the identical placeholder
`"0000000000000005"` — so the placeholders are not pairwise distinct — and the same
table migrated under a different `random()` stream yields a different result — so
the placeholder is a function of the random draw, not of the row's own surrogate
key.  This falsifies the claim as stated at this concrete input. -/
theorem migration_placeholder_counterexample :
    ((migrateVisitorTable
        [⟨1, "10.0.0.1", "ua1", "/a", "t1", none⟩, ⟨2, "10.0.0.2", "ua2", "/b", "t2", none⟩]
        [5, 5]).visitors.getD []).map (fun r => r.hashedIp) =
      ["0000000000000005", "0000000000000005"] ∧
    migrateVisitorTable
        [⟨1, "10.0.0.1", "ua1", "/a", "t1", none⟩, ⟨2, "10.0.0.2", "ua2", "/b", "t2", none⟩]
        [5, 6] ≠
      migrateVisitorTable
        [⟨1, "10.0.0.1", "ua1", "/a", "t1", none⟩, ⟨2, "10.0.0.2", "ua2", "/b", "t2", none⟩]
        [5, 5] := by
  constructor
  · rfl
  · decide

/-- C3 amended: migrating a legacy table of `N` rows produces exactly `N` rows in
the new table and drops the old table; every placeholder is a non-empty 16-character
hex string, but it is computed from that row's draw of `abs(random()) %
1000000000`, with no distinctness guarantee and no dependence on the row's
surrogate key.  Deterministic id-derived placeholders (`printf` of `id * 12345`)
are assigned only by the separate in-place patch `migrateExistingData`, which
rewrites exactly the rows whose `hashed_ip` is NULL or empty and leaves the rest
untouched. -/
theorem migrateVisitorTable_amended :
    (∀ (old : List LegacyVisitorRow) (randoms : List Int),
      randoms.length = old.length →
      ∃ rows, migrateVisitorTable old randoms = ⟨some rows, none⟩ ∧
        rows.length = old.length ∧
        rows.map (fun r => r.hashedIp) = randoms.map sqliteMigPlaceholder ∧
        (∀ r ∈ rows, r.hashedIp ≠ "" ∧ r.hashedIp.length = 16)) ∧
    (∀ (rows : List StoredVisitorRow) (r : StoredVisitorRow), r ∈ rows →
      (r.hashedIp = none ∨ r.hashedIp = some "") →
      { r with hashedIp := some (toHex16 (r.id * 12345)) } ∈ migrateExistingData rows) ∧
    (∀ (rows : List StoredVisitorRow) (r : StoredVisitorRow), r ∈ rows →
      r.hashedIp ≠ none → r.hashedIp ≠ some "" → r ∈ migrateExistingData rows) := by
  refine ⟨?_, ?_, ?_⟩
  · intro old randoms hlen
    refine ⟨List.zipWith
        (fun (row : LegacyVisitorRow) (r : Int) =>
          (⟨sqliteMigPlaceholder r, row.userAgent, row.path, row.timestamp,
            row.country.getD ""⟩ : MigratedVisitorRow))
        old randoms, rfl, ?_, ?_, ?_⟩
    · rw [List.length_zipWith]
      omega
    · rw [List.map_zipWith]
      exact zipWith_snd_map sqliteMigPlaceholder old randoms hlen
    · intro r hr
      rw [List.mem_iff_get] at hr
      obtain ⟨i, hi⟩ := hr
      rw [List.get_zipWith] at hi
      rw [← hi]
      exact ⟨toHex16_ne_empty _, toHex16_length _⟩
  · intro rows r hmem hempty
    unfold migrateExistingData
    rw [List.mem_map]
    refine ⟨r, hmem, ?_⟩
    rcases hempty with h | h <;> rw [h] <;> simp
  · intro rows r hmem hnn hne
    unfold migrateExistingData
    rw [List.mem_map]
    refine ⟨r, hmem, ?_⟩
    cases h : r.hashedIp with
    | none => exact absurd h hnn
    | some s =>
      have hs : (s == "") = false := by
        rw [beq_eq_false_iff_ne]
        intro hs
        rw [hs] at h
        exact hne h
      simp [hs]

/-- C3 witness: the 3-row spec scenario, with `random()` draws 11, 22, 33, and an
in-place patch of a row with empty `hashed_ip`. -/
theorem migrateVisitorTable_amended_witness :
    (∃ rows, migrateVisitorTable
        [⟨1, "uaA", "uA", "/x", "t1", none⟩, ⟨2, "uaB", "uB", "/y", "t2", none⟩,
         ⟨3, "uaC", "uC", "/z", "t3", none⟩]
        [11, 22, 33] = ⟨some rows, none⟩ ∧
      rows.length = 3 ∧
      rows.map (fun r => r.hashedIp) = [11, 22, 33].map sqliteMigPlaceholder ∧
      (∀ r ∈ rows, r.hashedIp ≠ "" ∧ r.hashedIp.length = 16)) ∧
    ({ id := 4, hashedIp := some (toHex16 (4 * 12345)), userAgent := "u", path := "/",
        timestamp := "t", country := none } : StoredVisitorRow) ∈
      migrateExistingData [⟨4, some "", "u", "/", "t", none⟩] :=
  ⟨migrateVisitorTable_amended.1
      [⟨1, "uaA", "uA", "/x", "t1", none⟩, ⟨2, "uaB", "uB", "/y", "t2", none⟩,
       ⟨3, "uaC", "uC", "/z", "t3", none⟩] [11, 22, 33] rfl,
   migrateVisitorTable_amended.2.1 [⟨4, some "", "u", "/", "t", none⟩]
      ⟨4, some "", "u", "/", "t", none⟩ (List.mem_singleton.mpr rfl) (Or.inr rfl)⟩

/-! ## C8: top-URLs ordering -/

instance : IsTotal URLStat topURLOrder :=
  ⟨fun x y => by unfold topURLOrder; omega⟩

instance : IsTrans URLStat topURLOrder :=
  ⟨fun x y z hxy hyz => by unfold topURLOrder at *; omega⟩

/-- C8: the admin top-URLs list is sorted by clicks descending with ties broken by
creation time descending, holds at most 10 entries, and on the spec scenario
(clicks 5, 5, 1 with distinct creation times) lists the more recently created of
the tied pair first. -/
theorem topURLs_ordering :
    (∀ rows : List URLRow,
      (topURLs rows).length ≤ 10 ∧
      List.Pairwise
        (fun x y => y.clicks < x.clicks ∨ (x.clicks = y.clicks ∧ y.createdAt ≤ x.createdAt))
        (topURLs rows)) ∧
    topURLs [⟨"a", "u1", 1, some 5⟩, ⟨"b", "u2", 2, some 5⟩, ⟨"c", "u3", 3, some 1⟩] =
      [⟨"b", "u2", 2, 5⟩, ⟨"a", "u1", 1, 5⟩, ⟨"c", "u3", 3, 1⟩] := by
  refine ⟨fun rows => ⟨?_, ?_⟩, by decide⟩
  · unfold topURLs
    rw [List.length_take]
    exact Nat.min_le_left _ _
  · exact List.Pairwise.sublist (List.take_sublist _ _)
      (List.sorted_insertionSort topURLOrder (rows.map toURLStat))

end ZachDev

namespace ZachDev

/-! ## C9: short-code generation -/

/-- Every base64-URL alphabet character is URL-safe and is not padding. -/
theorem b64Char_safe : ∀ i : Fin 64, isURLSafeChar (b64Char i.val) = true ∧
    (b64Char i.val == '=') = false := by decide

/-- C9: a failing randomness source is the only error source (the error is passed
through); on 6 in-range random bytes `generateShortCode` succeeds with exactly the
URL-safe base64 encoding of those bytes — stripping padding and truncating to 8
characters are no-ops here, the encoding of 6 bytes being exactly 8 padding-free
characters — so the result has 8 (hence between 6 and 8) characters, all URL-safe. -/
theorem generateShortCode_spec :
    (∀ e, generateShortCode (.error e) = .error e) ∧
    (∀ bytes : List Nat, bytes.length = 6 → (∀ b ∈ bytes, b < 256) →
      generateShortCode (.ok bytes) = .ok (String.mk (base64urlEncode bytes)) ∧
      (String.mk (base64urlEncode bytes)).length = 8 ∧
      (∀ c ∈ base64urlEncode bytes, isURLSafeChar c = true) ∧
      6 ≤ (String.mk (base64urlEncode bytes)).length ∧
      (String.mk (base64urlEncode bytes)).length ≤ 8) := by
  constructor
  · intro e; rfl
  · intro bytes hlen hbound
    rcases bytes with _ | ⟨b1, _ | ⟨b2, _ | ⟨b3, _ | ⟨b4, _ | ⟨b5, _ | ⟨b6, _ | ⟨b7, t⟩⟩⟩⟩⟩⟩⟩ <;>
      simp only [List.length_nil, List.length_cons] at hlen <;> try omega
    have hb1 : b1 < 256 := hbound b1 (by simp)
    have hb2 : b2 < 256 := hbound b2 (by simp)
    have hb3 : b3 < 256 := hbound b3 (by simp)
    have hb4 : b4 < 256 := hbound b4 (by simp)
    have hb5 : b5 < 256 := hbound b5 (by simp)
    have hb6 : b6 < 256 := hbound b6 (by simp)
    have henc : base64urlEncode [b1, b2, b3, b4, b5, b6] =
        [b64Char (b1 / 4), b64Char (b1 % 4 * 16 + b2 / 16), b64Char (b2 % 16 * 4 + b3 / 64),
         b64Char (b3 % 64), b64Char (b4 / 4), b64Char (b4 % 4 * 16 + b5 / 16),
         b64Char (b5 % 16 * 4 + b6 / 64), b64Char (b6 % 64)] := rfl
    have h8 : (b64Char (b6 % 64) == '=') = false := (b64Char_safe ⟨b6 % 64, by omega⟩).2
    have htrim : trimRightEqList (base64urlEncode [b1, b2, b3, b4, b5, b6]) =
        base64urlEncode [b1, b2, b3, b4, b5, b6] := by
      rw [henc]
      simp [trimRightEqList, h8]
    have hpure : generateShortCodePure [b1, b2, b3, b4, b5, b6] =
        String.mk (base64urlEncode [b1, b2, b3, b4, b5, b6]) := by
      unfold generateShortCodePure
      rw [htrim, henc]
      simp
    refine ⟨?_, ?_, ?_, ?_, ?_⟩
    · show Except.ok (generateShortCodePure _) = _
      rw [hpure]
    · rw [henc]
      rfl
    · intro c hc
      rw [henc] at hc
      simp only [List.mem_cons, List.not_mem_nil, or_false] at hc
      rcases hc with rfl | rfl | rfl | rfl | rfl | rfl | rfl | rfl
      · exact (b64Char_safe ⟨b1 / 4, by omega⟩).1
      · exact (b64Char_safe ⟨b1 % 4 * 16 + b2 / 16, by omega⟩).1
      · exact (b64Char_safe ⟨b2 % 16 * 4 + b3 / 64, by omega⟩).1
      · exact (b64Char_safe ⟨b3 % 64, by omega⟩).1
      · exact (b64Char_safe ⟨b4 / 4, by omega⟩).1
      · exact (b64Char_safe ⟨b4 % 4 * 16 + b5 / 16, by omega⟩).1
      · exact (b64Char_safe ⟨b5 % 16 * 4 + b6 / 64, by omega⟩).1
      · exact (b64Char_safe ⟨b6 % 64, by omega⟩).1
    · rw [henc]
      simp [String.length_mk]
    · rw [henc]
      simp [String.length_mk]

/-- C9 witness: the error pass-through and a concrete 6-byte draw. -/
theorem generateShortCode_spec_witness :
    generateShortCode (.error "entropy unavailable") = .error "entropy unavailable" ∧
    generateShortCode (.ok [0, 1, 2, 3, 4, 5]) =
      .ok (String.mk (base64urlEncode [0, 1, 2, 3, 4, 5])) ∧
    (String.mk (base64urlEncode [0, 1, 2, 3, 4, 5])).length = 8 :=
  ⟨generateShortCode_spec.1 "entropy unavailable",
   (generateShortCode_spec.2 [0, 1, 2, 3, 4, 5] rfl (by decide)).1,
   (generateShortCode_spec.2 [0, 1, 2, 3, 4, 5] rfl (by decide)).2.1⟩

end ZachDev

namespace ZachDev

/-! ## C5: hashIP determinism and salt sensitivity -/

/-- Every serialized word byte is below 256. -/
theorem wordBytes_mem_lt (w : Nat) : ∀ b ∈ wordBytes w, b < 256 := by
  intro b hb
  simp only [wordBytes, List.mem_cons, List.not_mem_nil, or_false] at hb
  rcases hb with rfl | rfl | rfl | rfl <;> exact Nat.mod_lt _ (by norm_num)

/-- A SHA-256 digest has 32 bytes. -/
theorem sha256Bytes_length (msg : List Nat) : (sha256Bytes msg).length = 32 := rfl

/-- Every SHA-256 digest byte is below 256. -/
theorem sha256Bytes_mem_lt (msg : List Nat) : ∀ b ∈ sha256Bytes msg, b < 256 := by
  intro b hb
  simp only [sha256Bytes, List.mem_flatten, List.mem_map] at hb
  obtain ⟨l, ⟨w, _, rfl⟩, hbl⟩ := hb
  exact wordBytes_mem_lt w b hbl

/-- Taking `2 * k` characters of a hex encoding is encoding the first `k` bytes. -/
theorem hexEncode_take : ∀ (l : List Nat) (k : Nat),
    (hexEncode l).take (2 * k) = hexEncode (l.take k) := by
  intro l
  induction l with
  | nil => intro k; simp [hexEncode]
  | cons b t ih =>
    intro k
    cases k with
    | zero => simp [hexEncode]
    | succ m =>
      have h2 : 2 * (m + 1) = 2 * m + 1 + 1 := by omega
      have hx : hexEncode (b :: t) =
          hexDigit (b / 16 % 16) :: hexDigit (b % 16) :: hexEncode t := rfl
      have hy : hexEncode (b :: t.take m) =
          hexDigit (b / 16 % 16) :: hexDigit (b % 16) :: hexEncode (t.take m) := rfl
      rw [h2, List.take_succ_cons, hx, hy, List.take_succ_cons, List.take_succ_cons, ih m]

/-- `hashIP` only depends on the first 8 digest bytes (16 hex characters). -/
theorem hashIP_eq_of_digest8_eq (ip s1 s2 : String)
    (h : (sha256Bytes (strBytes (ip ++ s1))).take 8 =
      (sha256Bytes (strBytes (ip ++ s2))).take 8) :
    hashIP ip s1 = hashIP ip s2 := by
  unfold hashIP
  rw [show (16 : Nat) = 2 * 8 from rfl, hexEncode_take, hexEncode_take, h]

/-- Base-256 value of a byte list is below `256 ^ length`. -/
theorem fromBytesLE_lt : ∀ l : List Nat, (∀ b ∈ l, b < 256) →
    fromBytesLE l < 256 ^ l.length := by
  intro l
  induction l with
  | nil => intro _; simp [fromBytesLE]
  | cons b t ih =>
    intro h
    have hb : b < 256 := h b (by simp)
    have ht := ih (fun x hx => h x (by simp [hx]))
    simp only [fromBytesLE, List.length_cons]
    rw [pow_succ]
    generalize 256 ^ t.length = N at ht ⊢
    omega

/-- Base-256 values determine byte lists of equal length. -/
theorem fromBytesLE_inj : ∀ (l1 l2 : List Nat), l1.length = l2.length →
    (∀ b ∈ l1, b < 256) → (∀ b ∈ l2, b < 256) →
    fromBytesLE l1 = fromBytesLE l2 → l1 = l2 := by
  intro l1
  induction l1 with
  | nil =>
    intro l2 hlen _ _ _
    cases l2 with
    | nil => rfl
    | cons c u => simp at hlen
  | cons b t ih =>
    intro l2 hlen h1 h2 heq
    cases l2 with
    | nil => simp at hlen
    | cons c u =>
      have hb : b < 256 := h1 b (by simp)
      have hc : c < 256 := h2 c (by simp)
      simp only [fromBytesLE] at heq
      have hbc : b = c := by omega
      have hr : fromBytesLE t = fromBytesLE u := by omega
      rw [hbc, ih u (by simpa using hlen) (fun x hx => h1 x (by simp [hx]))
        (fun x hx => h2 x (by simp [hx])) hr]

/-- The salts `saltOf n` have length `n`. -/
theorem saltOf_length (n : Nat) : (saltOf n).length = n := by
  simp [saltOf, String.length_mk, List.length_replicate]

/-- Distinct indices give distinct salts. -/
theorem saltOf_ne {m n : Nat} (h : m ≠ n) : saltOf m ≠ saltOf n := by
  intro hs
  exact h (by rw [← saltOf_length m, ← saltOf_length n, hs])

/-- The truncated digest of address + salt, as a value in a finite type. -/
theorem digest8_lt (a : String) (n : Nat) :
    fromBytesLE ((sha256Bytes (strBytes (a ++ saltOf n))).take 8) < 256 ^ 8 := by
  have hl : ((sha256Bytes (strBytes (a ++ saltOf n))).take 8).length = 8 := by
    rw [List.length_take, sha256Bytes_length]
    decide
  have hlt := fromBytesLE_lt ((sha256Bytes (strBytes (a ++ saltOf n))).take 8)
    (fun b hb => sha256Bytes_mem_lt _ b (List.mem_of_mem_take hb))
  rw [hl] at hlt
  exact hlt

/-- C5 counterexample: it is not true that for a fixed address every change of the
salt changes `hashIP`'s output.  `hashIP` truncates the digest to 16 hex characters
(64 bits), so mapping the infinitely many possible salts into the finitely many
truncated digests must identify two distinct salts (pigeonhole); for those two
salts the output is unchanged.  This proves the negation of the claim's universal
salt-sensitivity statement. -/
theorem hashIP_salt_change_counterexample :
    ¬ (∀ s1 s2 : String, s1 ≠ s2 →
        hashIP "203.0.113.7" s1 ≠ hashIP "203.0.113.7" s2) := by
  intro hinj
  obtain ⟨m, n, hmn, hfeq⟩ := Finite.exists_ne_map_eq_of_infinite
    (fun n : Nat =>
      (⟨fromBytesLE ((sha256Bytes (strBytes ("203.0.113.7" ++ saltOf n))).take 8),
        digest8_lt "203.0.113.7" n⟩ : Fin (256 ^ 8)))
  have hval := congrArg Fin.val hfeq
  have hdig : (sha256Bytes (strBytes ("203.0.113.7" ++ saltOf m))).take 8 =
      (sha256Bytes (strBytes ("203.0.113.7" ++ saltOf n))).take 8 := by
    refine fromBytesLE_inj _ _ ?_ ?_ ?_ hval
    · rw [List.length_take, List.length_take, sha256Bytes_length, sha256Bytes_length]
    · exact fun b hb => sha256Bytes_mem_lt _ b (List.mem_of_mem_take hb)
    · exact fun b hb => sha256Bytes_mem_lt _ b (List.mem_of_mem_take hb)
  exact hinj (saltOf m) (saltOf n) (saltOf_ne hmn)
    (hashIP_eq_of_digest8_eq "203.0.113.7" (saltOf m) (saltOf n) hdig)

set_option maxRecDepth 100000 in
set_option maxHeartbeats 4000000 in
/-- C5 amended: `hashIP` is deterministic — equal address and equal salt give
identical output — and the output does depend on the salt (a concrete simulated
restart changes it), but because the digest is truncated to 16 hex characters,
distinct salts are not guaranteed distinct outputs. -/
theorem hashIP_deterministic_and_salt_sensitive :
    (∀ (ip s1 s2 : String), s1 = s2 → hashIP ip s1 = hashIP ip s2) ∧
    hashIP "203.0.113.7" "saltA" ≠ hashIP "203.0.113.7" "saltB" := by
  constructor
  · intro ip s1 s2 h
    rw [h]
  · decide

/-- C5 witness: determinism instantiated at a concrete address and salt. -/
theorem hashIP_deterministic_witness :
    ("saltA" : String) = "saltA" ∧
    hashIP "203.0.113.7" "saltA" = hashIP "203.0.113.7" "saltA" :=
  ⟨rfl, hashIP_deterministic_and_salt_sensitive.1 "203.0.113.7" "saltA" "saltA" rfl⟩

end ZachDev
